import Mathlib

/-!
Verification of the Rune runtime core (crates/runestick) and one compiler
lowering (crates/rune), shallowly embedded in Lean 4.

The embedding follows the Rust source:
  - src/crates/runestick/src/access.rs   (Access counter, guards)
  - src/crates/runestick/src/shared.rs   (Shared cell, take, clone, drop)
  - src/crates/runestick/src/value/mod.rs (Value, coercions, type introspection)
  - src/crates/rune/src/compile/expr_unary.rs (unary expression lowering)

The access counter is a Rust isize (64-bit signed); its wrapping arithmetic
is modelled on Int with explicit reduction modulo 2^64 into the signed range.
The strong reference count is a Rust usize, modelled as Nat with the abort
conditions of clone and drop modelled as absent transitions.

Definitions come first, then all theorems.
-/

set_option linter.unreachableTactic false
set_option linter.unusedTactic false

namespace Rune

/-- Lower bound of the 64-bit signed range, the value of isize::MIN. -/
def isizeMin : Int := -(2 ^ 63)

/-- Upper bound of the 64-bit signed range, the value of isize::MAX. -/
def isizeMax : Int := 2 ^ 63 - 1

/-- Largest value of a Rust usize, where Shared::clone aborts. -/
def usizeMax : Nat := 2 ^ 64 - 1

/-- Reduce an integer into the 64-bit signed range, the semantics of the
wrapping_add and wrapping_sub operations on isize used in access.rs. -/
def wrap64 (x : Int) : Int := (x + 2 ^ 63) % 2 ^ 64 - 2 ^ 63

/-- Membership of the 64-bit signed range, the domain of an isize counter. -/
def InIsize (a : Int) : Prop := isizeMin ≤ a ∧ a ≤ isizeMax

instance (a : Int) : Decidable (InIsize a) := by
  unfold InIsize; infer_instance

/-- Error raised when tried to access for shared access but it was not
accessible (access.rs, NotAccessibleRef). -/
inductive NotAccessibleRef
  | mk
deriving DecidableEq

/-- Error raised when tried to access for exclusive access but it was not
accessible (access.rs, NotAccessibleMut). -/
inductive NotAccessibleMut
  | mk
deriving DecidableEq

/-- Error raised when a cell could not be taken (shared.rs, NotOwned). -/
inductive NotOwned
  | mk
deriving DecidableEq

namespace Access

/-- Access::shared from access.rs: computes b = a.wrapping_sub(1); fails with
NotAccessibleRef if b >= 0 leaving the counter unchanged, otherwise stores b
as the new counter.  The ok payload is the updated counter value. -/
def shared (a : Int) : Except NotAccessibleRef Int :=
  let b := wrap64 (a - 1)
  if 0 ≤ b then .error .mk else .ok b

/-- Access::exclusive from access.rs: computes b = a.wrapping_add(1); fails
with NotAccessibleMut if b != 1 leaving the counter unchanged, otherwise
stores b (= 1) as the new counter.  The ok payload is the updated counter. -/
def exclusive (a : Int) : Except NotAccessibleMut Int :=
  let b := wrap64 (a + 1)
  if b ≠ 1 then .error .mk else .ok b

/-- Access::release_shared from access.rs, run by Drop for RawRefGuard:
the counter becomes a.wrapping_add(1). -/
def releaseShared (a : Int) : Int := wrap64 (a + 1)

/-- Access::release_exclusive from access.rs, run by Drop for RawMutGuard:
the counter becomes a.wrapping_sub(1). -/
def releaseExclusive (a : Int) : Int := wrap64 (a - 1)

/-- Access::is_shared from access.rs: a.wrapping_sub(1) < 0. -/
def isShared (a : Int) : Bool := wrap64 (a - 1) < 0

/-- Access::is_exclusive from access.rs: the counter equals 0. -/
def isExclusive (a : Int) : Bool := a == 0

end Access

/-- State of one Access counter together with the number of outstanding
shared and exclusive guards, for trace reasoning over access.rs. -/
structure AccessState where
  a : Int
  sharedOut : Nat
  exclOut : Nat
deriving DecidableEq

/-- One step of the borrow protocol of access.rs: a successful shared or
exclusive acquisition, or the drop of an outstanding guard (which runs
release_shared or release_exclusive). -/
inductive AccessStep : AccessState → AccessState → Prop
  | acquireShared (s : AccessState) (b : Int)
      (h : Access.shared s.a = Except.ok b) :
      AccessStep s ⟨b, s.sharedOut + 1, s.exclOut⟩
  | acquireExclusive (s : AccessState) (b : Int)
      (h : Access.exclusive s.a = Except.ok b) :
      AccessStep s ⟨b, s.sharedOut, s.exclOut + 1⟩
  | dropShared (s : AccessState) (h : 1 ≤ s.sharedOut) :
      AccessStep s ⟨Access.releaseShared s.a, s.sharedOut - 1, s.exclOut⟩
  | dropExclusive (s : AccessState) (h : 1 ≤ s.exclOut) :
      AccessStep s ⟨Access.releaseExclusive s.a, s.sharedOut, s.exclOut - 1⟩

/-- The idle state of a fresh Access counter (Access::new). -/
def AccessInit : AccessState := ⟨0, 0, 0⟩

/-- Reachability by borrow and release operations from a fresh counter. -/
def AccessReachable (s : AccessState) : Prop :=
  Relation.ReflTransGen AccessStep AccessInit s

/-- Invariant tying the counter of access.rs to the outstanding guards. -/
def AccessInv (s : AccessState) : Prop :=
  s.a = (s.exclOut : Int) - (s.sharedOut : Int) ∧
  s.exclOut ≤ 1 ∧
  (1 ≤ s.exclOut → s.sharedOut = 0) ∧
  (s.sharedOut : Int) ≤ 2 ^ 63

/-- Interior state of a Shared cell (shared.rs, struct Inner): the access
counter, the strong reference count and the data. -/
structure SharedState (α : Type) where
  access : Int
  count : Nat
  data : α
deriving DecidableEq

namespace Shared

/-- Shared::take from shared.rs.  The Rust body checks
!access.is_exclusive() || count != 1 and returns Err(NotOwned) without
touching the cell; on success the interior value is moved out and the box is
deconstructed.  The second component is the cell after the call: unchanged on
failure, gone on success. -/
def take {α : Type} (s : SharedState α) :
    Except NotOwned α × Option (SharedState α) :=
  if !Access.isExclusive s.access || s.count != 1 then
    (.error .mk, some s)
  else
    (.ok s.data, none)

end Shared

/-- Abstract state of one Shared cell allocation for trace reasoning over
shared.rs: the live Shared handles, the outstanding StrongRef and StrongMut
guards (each holding a strong-count token through RawInner), the outstanding
plain Ref and Mut guards from get_ref and get_mut (lifetime-bound to a
handle, holding no token), the strong count, the access counter and whether
the box has been freed. -/
structure CellState where
  handles : Nat
  strongRefs : Nat
  strongMuts : Nat
  plainRefs : Nat
  plainMuts : Nat
  count : Nat
  a : Int
  freed : Bool
deriving DecidableEq

/-- Operations on a Shared cell that touch the strong count or the access
counter in shared.rs. -/
inductive CellOp
  | clone
  | dropHandle
  | strongRef
  | strongMut
  | dropStrongRef
  | dropStrongMut
  | getRef
  | getMut
  | dropRef
  | dropMut
deriving DecidableEq

/-- Step relation over a Shared cell, one case per operation of shared.rs.

  - clone (impl Clone for Shared): aborts when count is 0 or usize::MAX
    (modelled as no transition), otherwise increments count.
  - dropHandle (impl Drop for Shared): decrements count and frees the box
    when it reaches 0; aborts when count is 0.  Rust lifetimes forbid
    dropping a handle while a plain guard borrows from it; the model
    over-approximates this by allowing the drop whenever another handle
    remains or no plain guard is outstanding.
  - strongRef / strongMut (Shared::strong_ref, Shared::strong_mut): acquire
    access, consume the handle and hand its strong-count token to the guard
    (ManuallyDrop + RawInner), leaving count unchanged.  Consuming a handle
    is likewise forbidden by lifetimes while a plain guard borrows from it.
  - dropStrongRef / dropStrongMut (Drop for RawRefGuard/RawMutGuard plus
    Drop for RawInner via drop_fn_impl): release access, decrement count,
    free the box when it reaches 0.
  - getRef / getMut (Shared::get_ref, Shared::get_mut): acquire access
    through a live handle without touching the count.
  - dropRef / dropMut (Drop for RawRefGuard/RawMutGuard): release access. -/
def CellStep : CellOp → CellState → CellState → Prop
  | .clone, s, t =>
      1 ≤ s.handles ∧ s.count ≠ 0 ∧ s.count ≠ usizeMax ∧
      t = ⟨s.handles + 1, s.strongRefs, s.strongMuts, s.plainRefs,
           s.plainMuts, s.count + 1, s.a, s.freed⟩
  | .dropHandle, s, t =>
      1 ≤ s.handles ∧ s.count ≠ 0 ∧
      (2 ≤ s.handles ∨ (s.plainRefs = 0 ∧ s.plainMuts = 0)) ∧
      t = ⟨s.handles - 1, s.strongRefs, s.strongMuts, s.plainRefs,
           s.plainMuts, s.count - 1, s.a,
           if s.count - 1 = 0 then true else s.freed⟩
  | .strongRef, s, t =>
      1 ≤ s.handles ∧
      (2 ≤ s.handles ∨ (s.plainRefs = 0 ∧ s.plainMuts = 0)) ∧
      ∃ b, Access.shared s.a = Except.ok b ∧
      t = ⟨s.handles - 1, s.strongRefs + 1, s.strongMuts, s.plainRefs,
           s.plainMuts, s.count, b, s.freed⟩
  | .strongMut, s, t =>
      1 ≤ s.handles ∧
      (2 ≤ s.handles ∨ (s.plainRefs = 0 ∧ s.plainMuts = 0)) ∧
      ∃ b, Access.exclusive s.a = Except.ok b ∧
      t = ⟨s.handles - 1, s.strongRefs, s.strongMuts + 1, s.plainRefs,
           s.plainMuts, s.count, b, s.freed⟩
  | .dropStrongRef, s, t =>
      1 ≤ s.strongRefs ∧ s.count ≠ 0 ∧
      t = ⟨s.handles, s.strongRefs - 1, s.strongMuts, s.plainRefs,
           s.plainMuts, s.count - 1, Access.releaseShared s.a,
           if s.count - 1 = 0 then true else s.freed⟩
  | .dropStrongMut, s, t =>
      1 ≤ s.strongMuts ∧ s.count ≠ 0 ∧
      t = ⟨s.handles, s.strongRefs, s.strongMuts - 1, s.plainRefs,
           s.plainMuts, s.count - 1, Access.releaseExclusive s.a,
           if s.count - 1 = 0 then true else s.freed⟩
  | .getRef, s, t =>
      1 ≤ s.handles ∧
      ∃ b, Access.shared s.a = Except.ok b ∧
      t = ⟨s.handles, s.strongRefs, s.strongMuts, s.plainRefs + 1,
           s.plainMuts, s.count, b, s.freed⟩
  | .getMut, s, t =>
      1 ≤ s.handles ∧
      ∃ b, Access.exclusive s.a = Except.ok b ∧
      t = ⟨s.handles, s.strongRefs, s.strongMuts, s.plainRefs,
           s.plainMuts + 1, s.count, b, s.freed⟩
  | .dropRef, s, t =>
      1 ≤ s.plainRefs ∧
      t = ⟨s.handles, s.strongRefs, s.strongMuts, s.plainRefs - 1,
           s.plainMuts, s.count, Access.releaseShared s.a, s.freed⟩
  | .dropMut, s, t =>
      1 ≤ s.plainMuts ∧
      t = ⟨s.handles, s.strongRefs, s.strongMuts, s.plainRefs,
           s.plainMuts - 1, s.count, Access.releaseExclusive s.a, s.freed⟩

/-- State of a freshly allocated cell (Shared::new): one handle, count 1,
idle access counter. -/
def CellInit : CellState := ⟨1, 0, 0, 0, 0, 1, 0, false⟩

/-- Reachability of a cell state from a fresh allocation. -/
def CellReachable (s : CellState) : Prop :=
  Relation.ReflTransGen (fun s t => ∃ op, CellStep op s t) CellInit s

/-- Invariant of a Shared cell: the strong count counts the handles and the
strong guards, the access counter counts the borrows, exclusive and shared
borrows exclude each other, and a freed cell has nothing outstanding. -/
def CellInv (s : CellState) : Prop :=
  (s.freed = false → s.count = s.handles + s.strongRefs + s.strongMuts) ∧
  (s.freed = true → s.handles = 0 ∧ s.strongRefs = 0 ∧ s.strongMuts = 0 ∧
    s.plainRefs = 0 ∧ s.plainMuts = 0 ∧ s.count = 0 ∧ s.a = 0) ∧
  s.a = ((s.strongMuts + s.plainMuts : Nat) : Int) -
    ((s.strongRefs + s.plainRefs : Nat) : Int) ∧
  s.strongMuts + s.plainMuts ≤ 1 ∧
  (1 ≤ s.strongMuts + s.plainMuts → s.strongRefs + s.plainRefs = 0) ∧
  ((s.strongRefs + s.plainRefs : Nat) : Int) ≤ 2 ^ 63 ∧
  (1 ≤ s.plainRefs + s.plainMuts → 1 ≤ s.handles)

/-- Hashes in runestick are stable 64-bit values; the claims treated here
never compute with them, so the payload is an abstract Nat. -/
abbrev Hash := Nat

/-- Payload of Value::External (any.rs is not under src): a runtime type id
and a type name, the two pieces value/mod.rs reads through type_id() and
type_name(). -/
structure AnyData where
  typeId : Nat
  typeName : String
deriving DecidableEq

/-- Shared cell as carried by the Value variants: access counter, strong
count and interior data (shared.rs, struct Inner). -/
structure SharedCell (α : Type) where
  access : Int
  count : Nat
  data : α

/-- Shared::get_ref from shared.rs: acquire shared access, returning the
interior data.  The temporary guard used by value_type and type_info is
dropped at once, so only the success or failure of the acquisition
matters. -/
def SharedCell.get_ref {α : Type} (c : SharedCell α) :
    Except NotAccessibleRef α :=
  match Access.shared c.access with
  | .ok _ => .ok c.data
  | .error e => .error e

/-- Value from value/mod.rs, one constructor per Rust variant in source
order.  Payload choices: a float is carried as its bit pattern, Bytes as a
byte list, Object as an association list, Result as Except (ok = Ok,
error = Err), TypedTuple and TypedObject as a pair of the type hash and the
content, Future as an opaque unit payload. -/
inductive Value where
  | unit
  | bool (b : Bool)
  | byte (b : Nat)
  | char (c : Char)
  | integer (i : Int)
  | float (bits : Nat)
  | type (h : Hash)
  | staticString (s : String)
  | string (cell : SharedCell String)
  | bytes (cell : SharedCell (List Nat))
  | vec (cell : SharedCell (List Value))
  | tuple (cell : SharedCell (List Value))
  | object (cell : SharedCell (List (String × Value)))
  | future (cell : SharedCell Unit)
  | option (cell : SharedCell (Option Value))
  | result (cell : SharedCell (Except Value Value))
  | typedTuple (cell : SharedCell (Hash × List Value))
  | typedObject (cell : SharedCell (Hash × List (String × Value)))
  | external (cell : SharedCell AnyData)

/-- ValueType from value/value_type.rs (not under src), reconstructed from
its uses in value/mod.rs: one constructor per outcome of value_type. -/
inductive ValueType where
  | unit
  | bool
  | byte
  | char
  | integer
  | float
  | string
  | bytes
  | vec
  | tuple
  | object
  | type
  | future
  | result
  | option
  | typedTuple (ty : Hash)
  | typedObject (ty : Hash)
  | external (typeId : Nat)
deriving DecidableEq

/-- ValueTypeInfo from value/value_type_info.rs (not under src),
reconstructed from its uses in value/mod.rs. -/
inductive ValueTypeInfo where
  | unit
  | bool
  | byte
  | char
  | integer
  | float
  | string
  | bytes
  | vec
  | tuple
  | object
  | type (h : Hash)
  | future
  | option
  | result
  | typedObject (ty : Hash)
  | typedTuple (ty : Hash)
  | external (typeName : String)
deriving DecidableEq

/-- VmError variants referenced by value/mod.rs.  The vm_error module is not
under src; the Expected variants follow the spec (ExpectedX with the actual
type info) and accessError stands for the conversion of NotAccessibleRef
into VmError used by the question-mark operator in value_type, type_info
and the coercions. -/
inductive VmError where
  | expectedResult (actual : ValueTypeInfo)
  | expectedOption (actual : ValueTypeInfo)
  | expectedString (actual : ValueTypeInfo)
  | expectedBytes (actual : ValueTypeInfo)
  | expectedVec (actual : ValueTypeInfo)
  | expectedTuple (actual : ValueTypeInfo)
  | expectedObject (actual : ValueTypeInfo)
  | expectedExternal (actual : ValueTypeInfo)
  | accessError
deriving DecidableEq

namespace Value

/-- Value::value_type from value/mod.rs: total on primitives and plain
containers; for TypedTuple, TypedObject and External it reads the type hash
or type id through a temporary shared borrow of the cell, propagating the
access failure as a VmError. -/
def value_type : Value → Except VmError ValueType
  | .unit => .ok .unit
  | .bool _ => .ok .bool
  | .byte _ => .ok .byte
  | .char _ => .ok .char
  | .integer _ => .ok .integer
  | .float _ => .ok .float
  | .staticString _ => .ok .string
  | .string _ => .ok .string
  | .bytes _ => .ok .bytes
  | .vec _ => .ok .vec
  | .tuple _ => .ok .tuple
  | .object _ => .ok .object
  | .type _ => .ok .type
  | .future _ => .ok .future
  | .result _ => .ok .result
  | .option _ => .ok .option
  | .typedTuple cell =>
    match cell.get_ref with
    | .ok d => .ok (.typedTuple d.1)
    | .error _ => .error .accessError
  | .typedObject cell =>
    match cell.get_ref with
    | .ok d => .ok (.typedObject d.1)
    | .error _ => .error .accessError
  | .external cell =>
    match cell.get_ref with
    | .ok d => .ok (.external d.typeId)
    | .error _ => .error .accessError

/-- Value::type_info from value/mod.rs, the ValueTypeInfo analogue of
value_type. -/
def type_info : Value → Except VmError ValueTypeInfo
  | .unit => .ok .unit
  | .bool _ => .ok .bool
  | .byte _ => .ok .byte
  | .char _ => .ok .char
  | .integer _ => .ok .integer
  | .float _ => .ok .float
  | .staticString _ => .ok .string
  | .string _ => .ok .string
  | .bytes _ => .ok .bytes
  | .vec _ => .ok .vec
  | .tuple _ => .ok .tuple
  | .object _ => .ok .object
  | .type h => .ok (.type h)
  | .future _ => .ok .future
  | .option _ => .ok .option
  | .result _ => .ok .result
  | .typedObject cell =>
    match cell.get_ref with
    | .ok d => .ok (.typedObject d.1)
    | .error _ => .error .accessError
  | .typedTuple cell =>
    match cell.get_ref with
    | .ok d => .ok (.typedTuple d.1)
    | .error _ => .error .accessError
  | .external cell =>
    match cell.get_ref with
    | .ok d => .ok (.external d.typeName)
    | .error _ => .error .accessError

/-- Error produced on a coercion mismatch in value/mod.rs: the Rust code
builds ExpectedX { actual: actual.type_info()? }, so a failing type_info
short-circuits with its own error instead of the ExpectedX one. -/
def coerceErr (mk : ValueTypeInfo → VmError) (actual : Value) : VmError :=
  match actual.type_info with
  | .ok ti => mk ti
  | .error e => e

/-- Value::into_result from value/mod.rs. -/
def into_result : Value → Except VmError (SharedCell (Except Value Value))
  | .result r => .ok r
  | actual => .error (coerceErr VmError.expectedResult actual)

/-- Value::into_option from value/mod.rs. -/
def into_option : Value → Except VmError (SharedCell (Option Value))
  | .option o => .ok o
  | actual => .error (coerceErr VmError.expectedOption actual)

/-- Value::into_string from value/mod.rs. -/
def into_string : Value → Except VmError (SharedCell String)
  | .string s => .ok s
  | actual => .error (coerceErr VmError.expectedString actual)

/-- Value::into_bytes from value/mod.rs. -/
def into_bytes : Value → Except VmError (SharedCell (List Nat))
  | .bytes b => .ok b
  | actual => .error (coerceErr VmError.expectedBytes actual)

/-- Value::into_vec from value/mod.rs. -/
def into_vec : Value → Except VmError (SharedCell (List Value))
  | .vec v => .ok v
  | actual => .error (coerceErr VmError.expectedVec actual)

/-- Value::into_tuple from value/mod.rs. -/
def into_tuple : Value → Except VmError (SharedCell (List Value))
  | .tuple t => .ok t
  | actual => .error (coerceErr VmError.expectedTuple actual)

/-- Value::into_object from value/mod.rs. -/
def into_object : Value → Except VmError (SharedCell (List (String × Value)))
  | .object o => .ok o
  | actual => .error (coerceErr VmError.expectedObject actual)

/-- Value::into_external from value/mod.rs. -/
def into_external : Value → Except VmError (SharedCell AnyData)
  | .external a => .ok a
  | actual => .error (coerceErr VmError.expectedExternal actual)

/-- Discriminator for the three variants whose introspection goes through a
cell borrow (TypedTuple, TypedObject, External). -/
def heapTyped : Value → Bool
  | .typedTuple _ => true
  | .typedObject _ => true
  | .external _ => true
  | _ => false

end Value

/-- Unary operators of the rune AST as dispatched by expr_unary.rs: Not is
compiled, BorrowRef is rejected as UnsupportedRef, and every other operator
(the source file for ast::UnaryOp is not under src; Deref stands for the
remaining reserved forms the spec says are rejected) is rejected as
UnsupportedUnaryOp. -/
inductive UnaryOp
  | Not
  | BorrowRef
  | Deref
deriving DecidableEq

/-- Needs from the rune compiler (compiler.rs is not under src), modelled
from its use in expr_unary.rs and the spec: a Value or None flag per
sub-expression. -/
inductive Needs
  | Value
  | None
deriving DecidableEq

/-- Needs::value, true exactly on Needs::Value. -/
def Needs.value : Needs → Bool
  | .Value => true
  | .None => false

/-- Instructions emitted by the unary lowering, plus Integer as a stand-in
operand producer (inst.rs is not under src). -/
inductive Inst
  | Not
  | Pop
  | Integer (n : Int)
deriving DecidableEq

/-- Compile errors raised by expr_unary.rs. -/
inductive CompileError
  | UnsupportedRef
  | UnsupportedUnaryOp (op : UnaryOp)
deriving DecidableEq

/-- Net operand-stack effect of one instruction.  Modelled from the spec,
section 4.9: Not pops one operand and pushes one, Pop pops one, a literal
load pushes one. -/
def instEffect : Inst → Int
  | .Not => 0
  | .Pop => -1
  | .Integer _ => 1

/-- Net operand-stack effect of an instruction sequence. -/
def stackEffect (code : List Inst) : Int :=
  (code.map instEffect).sum

/-- Lowering of a unary expression, following expr_unary.rs: BorrowRef is
rejected first; the operand is compiled with Needs::Value (its already
compiled code is the operand argument here); Not emits Inst::Not and any
other operator is rejected; finally, when the value is not needed, a
trailing Pop is emitted. -/
def compileExprUnary (op : UnaryOp) (operand : List Inst) (needs : Needs) :
    Except CompileError (List Inst) :=
  match op with
  | .BorrowRef => .error .UnsupportedRef
  | .Not =>
    let code := operand ++ [Inst.Not]
    .ok (if needs.value then code else code ++ [Inst.Pop])
  | op => .error (.UnsupportedUnaryOp op)

/-! Theorems.  First the helper lemmas about wrapping arithmetic and the
Access operations, then one theorem per claim with its witnesses and
counterexamples. -/

theorem wrap64_eq_self {x : Int} (h1 : isizeMin ≤ x) (h2 : x ≤ isizeMax) :
    wrap64 x = x := by
  unfold wrap64
  have hlo : (0 : Int) ≤ x + 2 ^ 63 := by
    simp only [isizeMin] at h1; omega
  have hhi : x + 2 ^ 63 < 2 ^ 64 := by
    simp only [isizeMax] at h2; omega
  rw [Int.emod_eq_of_lt hlo hhi]
  omega

theorem wrap64_in_range (x : Int) : InIsize (wrap64 x) := by
  unfold InIsize wrap64 isizeMin isizeMax
  have h1 : (0 : Int) ≤ (x + 2 ^ 63) % 2 ^ 64 :=
    Int.emod_nonneg _ (by norm_num)
  have h2 : (x + 2 ^ 63) % 2 ^ 64 < 2 ^ 64 :=
    Int.emod_lt_of_pos _ (by norm_num)
  omega

theorem wrap64_min_sub_one : wrap64 (isizeMin - 1) = isizeMax := by
  unfold wrap64 isizeMin isizeMax
  decide

theorem wrap64_max_add_one : wrap64 (isizeMax + 1) = isizeMin := by
  unfold wrap64 isizeMin isizeMax
  decide

namespace Access

theorem shared_ok_of {a : Int} (hin : InIsize a) (hle : a ≤ 0)
    (hmin : a ≠ isizeMin) : shared a = .ok (a - 1) := by
  obtain ⟨h1, h2⟩ := hin
  have hw : wrap64 (a - 1) = a - 1 := by
    apply wrap64_eq_self
    · simp only [isizeMin] at h1 hmin ⊢; omega
    · simp only [isizeMax] at h2 ⊢; omega
  unfold shared
  simp only [hw]
  rw [if_neg]
  omega

theorem shared_err_of_pos {a : Int} (hin : InIsize a) (hpos : 0 < a) :
    shared a = .error .mk := by
  obtain ⟨h1, h2⟩ := hin
  have hw : wrap64 (a - 1) = a - 1 := by
    apply wrap64_eq_self
    · simp only [isizeMin] at h1 ⊢; omega
    · simp only [isizeMax] at h2 ⊢; omega
  unfold shared
  simp only [hw]
  rw [if_pos]
  omega

theorem shared_err_of_min : shared isizeMin = .error .mk := by
  unfold shared
  simp only [wrap64_min_sub_one]
  rw [if_pos]
  unfold isizeMax
  norm_num

theorem shared_ok_elim {a b : Int} (hin : InIsize a)
    (h : shared a = .ok b) : a ≤ 0 ∧ a ≠ isizeMin ∧ b = a - 1 := by
  have hcase : 0 < a ∨ a = isizeMin ∨ (a ≤ 0 ∧ a ≠ isizeMin) := by
    by_cases hp : 0 < a
    · exact Or.inl hp
    · by_cases hm : a = isizeMin
      · exact Or.inr (Or.inl hm)
      · exact Or.inr (Or.inr ⟨by omega, hm⟩)
  rcases hcase with hp | hm | ⟨hle, hne⟩
  · rw [shared_err_of_pos hin hp] at h; cases h
  · rw [hm, shared_err_of_min] at h; cases h
  · rw [shared_ok_of hin hle hne] at h
    exact ⟨hle, hne, (Except.ok.injEq _ _ ▸ h.symm : b = a - 1)⟩

theorem exclusive_ok_of_zero : exclusive 0 = .ok 1 := by
  have hw : wrap64 1 = 1 := wrap64_eq_self (by unfold isizeMin; norm_num)
    (by unfold isizeMax; norm_num)
  unfold exclusive
  simp [hw]

theorem exclusive_err_of_ne {a : Int} (hin : InIsize a) (hne : a ≠ 0) :
    exclusive a = .error .mk := by
  obtain ⟨h1, h2⟩ := hin
  unfold exclusive
  rw [if_pos]
  intro hw
  by_cases hmax : a = isizeMax
  · subst hmax
    rw [wrap64_max_add_one] at hw
    unfold isizeMin at hw
    omega
  · have heq : wrap64 (a + 1) = a + 1 := by
      apply wrap64_eq_self
      · simp only [isizeMin] at h1 ⊢; omega
      · simp only [isizeMax] at h2 hmax ⊢; omega
    rw [heq] at hw
    omega

theorem exclusive_ok_elim {a b : Int} (hin : InIsize a)
    (h : exclusive a = .ok b) : a = 0 ∧ b = 1 := by
  by_cases hz : a = 0
  · subst hz
    rw [exclusive_ok_of_zero] at h
    exact ⟨rfl, (Except.ok.injEq _ _ ▸ h.symm : b = 1)⟩
  · rw [exclusive_err_of_ne hin hz] at h; cases h

theorem releaseShared_eq_self {a : Int} (h1 : isizeMin ≤ a)
    (h2 : a + 1 ≤ isizeMax) : releaseShared a = a + 1 := by
  unfold releaseShared
  apply wrap64_eq_self
  · simp only [isizeMin] at h1 ⊢; omega
  · exact h2

theorem releaseExclusive_one : releaseExclusive 1 = 0 := by
  unfold releaseExclusive
  apply wrap64_eq_self
  · unfold isizeMin; norm_num
  · unfold isizeMax; norm_num

end Access

/-- Claim C1 (corrected).  For an isize counter value a, Access::shared
succeeds exactly when a ≤ 0 AND a is not isize::MIN, and on success the
stored counter is a - 1 (one more outstanding shared borrow); when a > 0 or
a = isize::MIN it fails with NotAccessibleRef and the counter is unchanged
(the error branch of the Rust code returns before the set).  The original
claim said success exactly when a ≤ 0; at a = isize::MIN the wrapping
subtraction makes the borrow fail although a ≤ 0. -/
theorem C1_shared_borrow_guard (a : Int) (hin : InIsize a) :
    ((a ≤ 0 ∧ a ≠ isizeMin) → Access.shared a = .ok (a - 1)) ∧
    ((0 < a ∨ a = isizeMin) → Access.shared a = .error .mk) := by
  constructor
  · intro ⟨hle, hne⟩
    exact Access.shared_ok_of hin hle hne
  · intro h
    rcases h with hp | hm
    · exact Access.shared_err_of_pos hin hp
    · rw [hm]; exact Access.shared_err_of_min

/-- Witness for C1 at a = -3 and a = 2. -/
theorem C1_shared_borrow_guard_witness :
    Access.shared (-3) = .ok (-4) ∧ Access.shared 2 = .error .mk :=
  ⟨(C1_shared_borrow_guard (-3) (by decide)).1 (by decide),
   (C1_shared_borrow_guard 2 (by decide)).2 (Or.inl (by norm_num))⟩

/-- Counterexample to C1 as stated: at a = isize::MIN the counter satisfies
a ≤ 0, yet Access::shared fails. -/
theorem C1_counterexample :
    Access.shared isizeMin = .error .mk ∧ isizeMin ≤ 0 :=
  ⟨Access.shared_err_of_min, by unfold isizeMin; norm_num⟩

/-- Claim C2 (confirmed).  For an isize counter value a, Access::exclusive
succeeds exactly when a = 0, storing 1; for every other value, in particular
any negative value recording outstanding shared borrows, it fails with
NotAccessibleMut and the counter is unchanged (the error branch of the Rust
code returns before the set). -/
theorem C2_exclusive_borrow_guard (a : Int) (hin : InIsize a) :
    (Access.exclusive a = .ok 1 ↔ a = 0) ∧
    (a ≠ 0 → Access.exclusive a = .error .mk) := by
  constructor
  · constructor
    · intro h
      exact (Access.exclusive_ok_elim hin h).1
    · intro h
      rw [h]; exact Access.exclusive_ok_of_zero
  · exact Access.exclusive_err_of_ne hin

/-- Witness for C2 at a = 0 and a = -1. -/
theorem C2_exclusive_borrow_guard_witness :
    Access.exclusive 0 = .ok 1 ∧ Access.exclusive (-1) = .error .mk :=
  ⟨(C2_exclusive_borrow_guard 0 (by decide)).1.mpr rfl,
   (C2_exclusive_borrow_guard (-1) (by decide)).2 (by norm_num)⟩

/-- Claim C9 (confirmed).  A successful Access::shared always stores a
strictly negative counter, and at a = isize::MIN a further shared borrow
fails: the wrapping subtraction produces isize::MAX, which is nonnegative
and refused, leaving the counter unchanged. -/
theorem C9_shared_borrow_no_overflow (a : Int) (hin : InIsize a) :
    (∀ b, Access.shared a = .ok b → b < 0) ∧
    (a = isizeMin →
      Access.shared a = .error .mk ∧ 0 ≤ wrap64 (a - 1) ∧
      wrap64 (a - 1) = isizeMax) := by
  constructor
  · intro b h
    obtain ⟨hle, hne, hb⟩ := Access.shared_ok_elim hin h
    omega
  · intro hm
    subst hm
    refine ⟨Access.shared_err_of_min, ?_, wrap64_min_sub_one⟩
    rw [wrap64_min_sub_one]
    unfold isizeMax
    norm_num

/-- Witness for C9 at a = 0 and at a = isize::MIN. -/
theorem C9_shared_borrow_no_overflow_witness :
    ((-1 : Int) < 0) ∧ Access.shared isizeMin = .error .mk :=
  ⟨(C9_shared_borrow_no_overflow 0 (by decide)).1 (-1)
     (Access.shared_ok_of (by decide) (by norm_num) (by decide)),
   ((C9_shared_borrow_no_overflow isizeMin (by decide)).2 rfl).1⟩

theorem accessInv_init : AccessInv AccessInit := by
  unfold AccessInv AccessInit
  norm_num

theorem accessInv_step {s t : AccessState} (hs : AccessInv s)
    (h : AccessStep s t) : AccessInv t := by
  obtain ⟨ha, he1, hes, hsb⟩ := hs
  cases h with
  | acquireShared b hok =>
    have hin : InIsize s.a := by
      unfold InIsize isizeMin isizeMax
      constructor <;> omega
    obtain ⟨hle, hne, hb⟩ := Access.shared_ok_elim hin hok
    have hexcl : s.exclOut = 0 := by
      rcases Nat.eq_zero_or_pos s.exclOut with h0 | h1
      · exact h0
      · have := hes h1; omega
    have hne2 : s.a ≠ -(2 ^ 63) := by
      unfold isizeMin at hne; exact hne
    unfold AccessInv
    refine ⟨?_, ?_, ?_, ?_⟩ <;> simp only [] <;> push_cast <;> omega
  | acquireExclusive b hok =>
    have hin : InIsize s.a := by
      unfold InIsize isizeMin isizeMax
      constructor <;> omega
    obtain ⟨hz, hb⟩ := Access.exclusive_ok_elim hin hok
    have hsh : s.sharedOut = 0 := by omega
    have hexcl : s.exclOut = 0 := by omega
    unfold AccessInv
    refine ⟨?_, ?_, ?_, ?_⟩ <;> simp only [] <;> push_cast <;> omega
  | dropShared h1 =>
    have hexcl : s.exclOut = 0 := by
      rcases Nat.eq_zero_or_pos s.exclOut with h0 | h2
      · exact h0
      · have := hes h2; omega
    have hrel : Access.releaseShared s.a = s.a + 1 := by
      apply Access.releaseShared_eq_self
      · unfold isizeMin; omega
      · unfold isizeMax; omega
    unfold AccessInv
    refine ⟨?_, ?_, ?_, ?_⟩ <;> simp only [hrel] <;> push_cast <;> omega
  | dropExclusive h1 =>
    have hexcl : s.exclOut = 1 := by omega
    have hsh : s.sharedOut = 0 := hes h1
    have hav : s.a = 1 := by omega
    have hrel : Access.releaseExclusive s.a = 0 := by
      rw [hav]; exact Access.releaseExclusive_one
    unfold AccessInv
    refine ⟨?_, ?_, ?_, ?_⟩ <;> simp only [hrel] <;> push_cast <;> omega

theorem accessInv_reachable {s : AccessState} (h : AccessReachable s) :
    AccessInv s := by
  unfold AccessReachable at h
  induction h with
  | refl => exact accessInv_init
  | tail hab hbc ih => exact accessInv_step ih hbc

/-- Claim C3 (confirmed).  Borrow accounting is balanced: in any state
reachable from an idle cell by successful acquisitions and guard drops, once
every guard has been dropped the counter is 0 again; moreover dropping a
shared guard increments the counter by one (no wrapping occurs in the
reachable range) and dropping the exclusive guard takes it from 1 to 0. -/
theorem C3_borrow_accounting_balanced :
    (∀ s, AccessReachable s → s.sharedOut = 0 → s.exclOut = 0 → s.a = 0) ∧
    (∀ a, isizeMin ≤ a → a + 1 ≤ isizeMax →
      Access.releaseShared a = a + 1) ∧
    Access.releaseExclusive 1 = 0 := by
  refine ⟨?_, ?_, Access.releaseExclusive_one⟩
  · intro s hs h1 h2
    obtain ⟨ha, _, _, _⟩ := accessInv_reachable hs
    omega
  · intro a h1 h2
    exact Access.releaseShared_eq_self h1 h2

/-- Witness for C3 at the idle state and at counter -5. -/
theorem C3_borrow_accounting_balanced_witness :
    AccessInit.a = 0 ∧ Access.releaseShared (-5) = -4 :=
  ⟨C3_borrow_accounting_balanced.1 AccessInit Relation.ReflTransGen.refl
     rfl rfl,
   by
     have h := C3_borrow_accounting_balanced.2.1 (-5) (by decide) (by decide)
     rw [h]; norm_num⟩

/-- Claim C6 (corrected).  At every reachable state of the access counter,
the value is 1 (one exclusive borrow outstanding), 0 (idle), or strictly
negative with |a| outstanding shared borrows; in particular, while an
exclusive borrow is outstanding the counter equals 1, not -1 as the original
claim stated. -/
theorem C6_access_counter_states (s : AccessState)
    (h : AccessReachable s) :
    (1 ≤ s.exclOut → s.a = 1) ∧
    (s.a = 1 ∨ s.a = 0 ∨ s.a < 0) ∧
    (s.a = 0 → s.sharedOut = 0 ∧ s.exclOut = 0) ∧
    (s.a < 0 → s.exclOut = 0 ∧ (s.sharedOut : Int) = -s.a) := by
  obtain ⟨ha, he1, hes, hsb⟩ := accessInv_reachable h
  have hcases : s.exclOut = 0 ∨ (s.exclOut = 1 ∧ s.sharedOut = 0) := by
    rcases Nat.eq_zero_or_pos s.exclOut with h0 | h1
    · exact Or.inl h0
    · exact Or.inr ⟨by omega, hes h1⟩
  rcases hcases with h0 | ⟨h1, h2⟩ <;>
    refine ⟨?_, ?_, ?_, ?_⟩ <;> omega

/-- Witness for C6 at the state after one exclusive acquisition. -/
theorem C6_access_counter_states_witness :
    (AccessState.mk 1 0 1).a = 1 :=
  (C6_access_counter_states ⟨1, 0, 1⟩
    (Relation.ReflTransGen.single
      (AccessStep.acquireExclusive AccessInit 1
        Access.exclusive_ok_of_zero))).1 (by norm_num)

/-- Counterexample to C6 as stated: the state reached by one successful
exclusive borrow from a fresh cell has counter 1, which is neither -1 nor in
the claimed set of nonpositive values. -/
theorem C6_counterexample :
    AccessReachable ⟨1, 0, 1⟩ ∧ (AccessState.mk 1 0 1).exclOut = 1 ∧
    ¬((AccessState.mk 1 0 1).a = -1 ∨ (AccessState.mk 1 0 1).a ≤ 0) := by
  refine ⟨?_, rfl, by norm_num⟩
  exact Relation.ReflTransGen.single
    (AccessStep.acquireExclusive AccessInit 1 Access.exclusive_ok_of_zero)

/-- Claim C4 (confirmed).  Shared::take returns the interior value exactly
when the strong count is 1 and the access counter is 0; otherwise it fails
with NotOwned and the cell is unchanged (the Rust body returns the error
before any write; the later drop of the consumed handle is the separate Drop
impl covered by the cell trace model). -/
theorem C4_take_requires_unique_idle {α : Type} (s : SharedState α) :
    (s.count = 1 ∧ s.access = 0 → Shared.take s = (.ok s.data, none)) ∧
    (¬(s.count = 1 ∧ s.access = 0) →
      Shared.take s = (.error .mk, some s)) := by
  unfold Shared.take Access.isExclusive
  constructor
  · intro ⟨h1, h2⟩
    simp [h1, h2]
  · intro h
    have h2 : s.access ≠ 0 ∨ s.count ≠ 1 := by tauto
    rcases h2 with h2 | h2 <;> simp [h2]

/-- Witness for C4 on an idle uniquely owned cell and on a cell with strong
count 2. -/
theorem C4_take_requires_unique_idle_witness :
    Shared.take (⟨0, 1, (7 : Int)⟩ : SharedState Int) = (.ok 7, none) ∧
    Shared.take (⟨0, 2, (7 : Int)⟩ : SharedState Int) =
      (.error .mk, some ⟨0, 2, 7⟩) :=
  ⟨(C4_take_requires_unique_idle ⟨0, 1, 7⟩).1 ⟨rfl, rfl⟩,
   (C4_take_requires_unique_idle ⟨0, 2, 7⟩).2 (by norm_num)⟩

theorem cellInv_init : CellInv CellInit := by
  unfold CellInv CellInit
  norm_num

theorem cell_shared_facts {s : CellState} (hs : CellInv s) {b : Int}
    (hok : Access.shared s.a = Except.ok b) :
    s.strongMuts = 0 ∧ s.plainMuts = 0 ∧ b = s.a - 1 ∧
    s.a = -((s.strongRefs + s.plainRefs : Nat) : Int) ∧
    ((s.strongRefs + s.plainRefs : Nat) : Int) < 2 ^ 63 := by
  obtain ⟨hc, hf, ha, hm1, hmx, hsb, hpin⟩ := hs
  have hin : InIsize s.a := by
    unfold InIsize isizeMin isizeMax
    constructor <;> omega
  obtain ⟨hle, hne, hb⟩ := Access.shared_ok_elim hin hok
  unfold isizeMin at hne
  have hM : s.strongMuts + s.plainMuts = 0 := by
    rcases Nat.eq_zero_or_pos (s.strongMuts + s.plainMuts) with h0 | h1
    · exact h0
    · have := hmx h1; omega
  refine ⟨by omega, by omega, hb, by omega, by omega⟩

theorem cell_exclusive_facts {s : CellState} (hs : CellInv s) {b : Int}
    (hok : Access.exclusive s.a = Except.ok b) :
    s.strongMuts = 0 ∧ s.plainMuts = 0 ∧ s.strongRefs = 0 ∧
    s.plainRefs = 0 ∧ s.a = 0 ∧ b = 1 := by
  obtain ⟨hc, hf, ha, hm1, hmx, hsb, hpin⟩ := hs
  have hin : InIsize s.a := by
    unfold InIsize isizeMin isizeMax
    constructor <;> omega
  obtain ⟨hz, hb⟩ := Access.exclusive_ok_elim hin hok
  have hM : s.strongMuts + s.plainMuts = 0 := by
    rcases Nat.eq_zero_or_pos (s.strongMuts + s.plainMuts) with h0 | h1
    · exact h0
    · have := hmx h1; omega
  refine ⟨by omega, by omega, by omega, by omega, hz, hb⟩

theorem cellInv_not_freed_of_live {s : CellState} (hs : CellInv s)
    (hlive : 1 ≤ s.handles + s.strongRefs + s.strongMuts +
      s.plainRefs + s.plainMuts) : s.freed = false := by
  obtain ⟨hc, hf, ha, hm1, hmx, hsb, hpin⟩ := hs
  cases hcase : s.freed
  · rfl
  · obtain ⟨z1, z2, z3, z4, z5, z6, z7⟩ := hf hcase
    omega

theorem cellInv_step {op : CellOp} {s t : CellState} (hs : CellInv s)
    (h : CellStep op s t) : CellInv t := by
  have hs0 := hs
  obtain ⟨hc, hf, ha, hm1, hmx, hsb, hpin⟩ := hs
  cases op with
  | clone =>
    obtain ⟨h1, h2, h3, ht⟩ := h
    subst ht
    have hfr : s.freed = false := cellInv_not_freed_of_live hs0 (by omega)
    have hcount := hc hfr
    unfold CellInv
    refine ⟨?_, ?_, ?_, ?_, ?_, ?_, ?_⟩ <;> simp only [hfr] <;>
      first
        | (intro hx; exact absurd hx (by decide))
        | (intro hx; omega)
        | omega
        | trivial
  | dropHandle =>
    obtain ⟨h1, h2, h3, ht⟩ := h
    subst ht
    have hfr : s.freed = false := cellInv_not_freed_of_live hs0 (by omega)
    have hcount := hc hfr
    by_cases hz : s.count - 1 = 0
    · have hh : s.handles = 1 := by omega
      have hpl : s.plainRefs = 0 ∧ s.plainMuts = 0 := by
        rcases h3 with h3 | h3
        · omega
        · exact h3
      unfold CellInv
      refine ⟨?_, ?_, ?_, ?_, ?_, ?_, ?_⟩ <;>
        simp only [hfr, if_pos hz] <;>
        first
          | (intro hx; exact absurd hx (by decide))
          | (intro hx; refine ⟨?_, ?_, ?_, ?_, ?_, ?_, ?_⟩ <;> first | omega | trivial)
          | (intro hx; omega)
          | omega
          | trivial
    · unfold CellInv
      refine ⟨?_, ?_, ?_, ?_, ?_, ?_, ?_⟩ <;>
        simp only [hfr, if_neg hz] <;>
        first
          | (intro hx; exact absurd hx (by decide))
          | (intro hx; omega)
          | omega
          | trivial
  | strongRef =>
    obtain ⟨h1, h2, b, hok, ht⟩ := h
    subst ht
    have hfr : s.freed = false := cellInv_not_freed_of_live hs0 (by omega)
    have hcount := hc hfr
    obtain ⟨hsm, hpm, hb, hav, hlt⟩ := cell_shared_facts hs0 hok
    have hpin2 : 1 ≤ s.plainRefs + s.plainMuts → 2 ≤ s.handles := by
      intro hx
      rcases h2 with h2 | h2
      · exact h2
      · omega
    unfold CellInv
    refine ⟨?_, ?_, ?_, ?_, ?_, ?_, ?_⟩ <;> simp only [hfr] <;>
      first
        | (intro hx; exact absurd hx (by decide))
        | (intro hx; have := hpin2 hx; omega)
        | omega
        | trivial
  | strongMut =>
    obtain ⟨h1, h2, b, hok, ht⟩ := h
    subst ht
    have hfr : s.freed = false := cellInv_not_freed_of_live hs0 (by omega)
    have hcount := hc hfr
    obtain ⟨hsm, hpm, hsr, hpr, hav, hb⟩ := cell_exclusive_facts hs0 hok
    unfold CellInv
    refine ⟨?_, ?_, ?_, ?_, ?_, ?_, ?_⟩ <;> simp only [hfr] <;>
      first
        | (intro hx; exact absurd hx (by decide))
        | (intro hx; omega)
        | omega
        | trivial
  | dropStrongRef =>
    obtain ⟨h1, h2, ht⟩ := h
    subst ht
    have hfr : s.freed = false := cellInv_not_freed_of_live hs0 (by omega)
    have hcount := hc hfr
    have hM : s.strongMuts + s.plainMuts = 0 := by
      rcases Nat.eq_zero_or_pos (s.strongMuts + s.plainMuts) with h0 | hp
      · exact h0
      · have := hmx hp; omega
    have hrel : Access.releaseShared s.a = s.a + 1 := by
      apply Access.releaseShared_eq_self
      · unfold isizeMin; omega
      · unfold isizeMax; omega
    by_cases hz : s.count - 1 = 0
    · have hh : s.handles = 0 := by omega
      have hpl : s.plainRefs + s.plainMuts = 0 := by
        rcases Nat.eq_zero_or_pos (s.plainRefs + s.plainMuts) with h0 | hp
        · exact h0
        · have := hpin hp; omega
      unfold CellInv
      refine ⟨?_, ?_, ?_, ?_, ?_, ?_, ?_⟩ <;>
        simp only [hfr, if_pos hz, hrel] <;>
        first
          | (intro hx; exact absurd hx (by decide))
          | (intro hx; refine ⟨?_, ?_, ?_, ?_, ?_, ?_, ?_⟩ <;> first | omega | trivial)
          | (intro hx; omega)
          | omega
          | trivial
    · unfold CellInv
      refine ⟨?_, ?_, ?_, ?_, ?_, ?_, ?_⟩ <;>
        simp only [hfr, if_neg hz, hrel] <;>
        first
          | (intro hx; exact absurd hx (by decide))
          | (intro hx; omega)
          | omega
          | trivial
  | dropStrongMut =>
    obtain ⟨h1, h2, ht⟩ := h
    subst ht
    have hfr : s.freed = false := cellInv_not_freed_of_live hs0 (by omega)
    have hcount := hc hfr
    have hsm : 1 ≤ s.strongMuts := h1
    have hR : s.strongRefs + s.plainRefs = 0 := hmx (by omega)
    have hav : s.a = 1 := by omega
    have hrel : Access.releaseExclusive s.a = 0 := by
      rw [hav]; exact Access.releaseExclusive_one
    by_cases hz : s.count - 1 = 0
    · have hh : s.handles = 0 := by omega
      have hpl : s.plainRefs + s.plainMuts = 0 := by
        rcases Nat.eq_zero_or_pos (s.plainRefs + s.plainMuts) with h0 | hp
        · exact h0
        · have := hpin hp; omega
      unfold CellInv
      refine ⟨?_, ?_, ?_, ?_, ?_, ?_, ?_⟩ <;>
        simp only [hfr, if_pos hz, hrel] <;>
        first
          | (intro hx; exact absurd hx (by decide))
          | (intro hx; refine ⟨?_, ?_, ?_, ?_, ?_, ?_, ?_⟩ <;> first | omega | trivial)
          | (intro hx; omega)
          | omega
          | trivial
    · unfold CellInv
      refine ⟨?_, ?_, ?_, ?_, ?_, ?_, ?_⟩ <;>
        simp only [hfr, if_neg hz, hrel] <;>
        first
          | (intro hx; exact absurd hx (by decide))
          | (intro hx; omega)
          | omega
          | trivial
  | getRef =>
    obtain ⟨h1, b, hok, ht⟩ := h
    subst ht
    have hfr : s.freed = false := cellInv_not_freed_of_live hs0 (by omega)
    have hcount := hc hfr
    obtain ⟨hsm, hpm, hb, hav, hlt⟩ := cell_shared_facts hs0 hok
    unfold CellInv
    refine ⟨?_, ?_, ?_, ?_, ?_, ?_, ?_⟩ <;> simp only [hfr] <;>
      first
        | (intro hx; exact absurd hx (by decide))
        | (intro hx; omega)
        | omega
        | trivial
  | getMut =>
    obtain ⟨h1, b, hok, ht⟩ := h
    subst ht
    have hfr : s.freed = false := cellInv_not_freed_of_live hs0 (by omega)
    have hcount := hc hfr
    obtain ⟨hsm, hpm, hsr, hpr, hav, hb⟩ := cell_exclusive_facts hs0 hok
    unfold CellInv
    refine ⟨?_, ?_, ?_, ?_, ?_, ?_, ?_⟩ <;> simp only [hfr] <;>
      first
        | (intro hx; exact absurd hx (by decide))
        | (intro hx; omega)
        | omega
        | trivial
  | dropRef =>
    obtain ⟨h1, ht⟩ := h
    subst ht
    have hfr : s.freed = false := cellInv_not_freed_of_live hs0 (by omega)
    have hcount := hc hfr
    have hM : s.strongMuts + s.plainMuts = 0 := by
      rcases Nat.eq_zero_or_pos (s.strongMuts + s.plainMuts) with h0 | hp
      · exact h0
      · have := hmx hp; omega
    have hrel : Access.releaseShared s.a = s.a + 1 := by
      apply Access.releaseShared_eq_self
      · unfold isizeMin; omega
      · unfold isizeMax; omega
    have hh : 1 ≤ s.handles := hpin (by omega)
    unfold CellInv
    refine ⟨?_, ?_, ?_, ?_, ?_, ?_, ?_⟩ <;> simp only [hfr, hrel] <;>
      first
        | (intro hx; exact absurd hx (by decide))
        | (intro hx; omega)
        | omega
        | trivial
  | dropMut =>
    obtain ⟨h1, ht⟩ := h
    subst ht
    have hfr : s.freed = false := cellInv_not_freed_of_live hs0 (by omega)
    have hcount := hc hfr
    have hR : s.strongRefs + s.plainRefs = 0 := hmx (by omega)
    have hav : s.a = 1 := by omega
    have hrel : Access.releaseExclusive s.a = 0 := by
      rw [hav]; exact Access.releaseExclusive_one
    have hh : 1 ≤ s.handles := hpin (by omega)
    unfold CellInv
    refine ⟨?_, ?_, ?_, ?_, ?_, ?_, ?_⟩ <;> simp only [hfr, hrel] <;>
      first
        | (intro hx; exact absurd hx (by decide))
        | (intro hx; omega)
        | omega
        | trivial


theorem cellInv_reachable {s : CellState} (h : CellReachable s) :
    CellInv s := by
  unfold CellReachable at h
  induction h with
  | refl => exact cellInv_init
  | tail hab hbc ih =>
    obtain ⟨op, hstep⟩ := hbc
    exact cellInv_step ih hstep


/-- Claim C5 (confirmed).  A Shared cell is freed only when its strong
count reaches zero, and in every reachable freed state no borrow is
outstanding and the access counter is 0; the strong count and the borrow
counter are updated independently, clone incrementing the strong count
(leaving the borrow counter and freed flag alone) and handle drop
decrementing it. -/
theorem C5_free_only_when_unreferenced :
    (∀ s, CellReachable s → s.freed = true →
      s.count = 0 ∧ s.a = 0 ∧ s.handles = 0 ∧ s.strongRefs = 0 ∧
      s.strongMuts = 0 ∧ s.plainRefs = 0 ∧ s.plainMuts = 0) ∧
    (∀ s t, CellStep .clone s t →
      t.count = s.count + 1 ∧ t.a = s.a ∧ t.freed = s.freed) ∧
    (∀ s t, CellStep .dropHandle s t →
      t.count = s.count - 1 ∧ t.a = s.a) ∧
    (∀ op s t, CellStep op s t → s.freed = false → t.freed = true →
      t.count = 0) := by
  refine ⟨?_, ?_, ?_, ?_⟩
  · intro s hs hfreed
    obtain ⟨hc, hf, ha, hm1, hmx, hsb, hpin⟩ := cellInv_reachable hs
    obtain ⟨z1, z2, z3, z4, z5, z6, z7⟩ := hf hfreed
    exact ⟨z6, z7, z1, z2, z3, z4, z5⟩
  · intro s t h
    obtain ⟨h1, h2, h3, ht⟩ := h
    subst ht
    exact ⟨rfl, rfl, rfl⟩
  · intro s t h
    obtain ⟨h1, h2, h3, ht⟩ := h
    subst ht
    exact ⟨rfl, rfl⟩
  · intro op s t h hfalse htrue
    cases op with
    | clone =>
      obtain ⟨h1, h2, h3, ht⟩ := h
      subst ht
      simp [hfalse] at htrue
    | dropHandle =>
      obtain ⟨h1, h2, h3, ht⟩ := h
      subst ht
      by_cases hz : s.count - 1 = 0
      · exact hz
      · simp only [if_neg hz] at htrue
        simp [hfalse] at htrue
    | strongRef =>
      obtain ⟨h1, h2, b, hok, ht⟩ := h
      subst ht
      simp [hfalse] at htrue
    | strongMut =>
      obtain ⟨h1, h2, b, hok, ht⟩ := h
      subst ht
      simp [hfalse] at htrue
    | dropStrongRef =>
      obtain ⟨h1, h2, ht⟩ := h
      subst ht
      by_cases hz : s.count - 1 = 0
      · exact hz
      · simp only [if_neg hz] at htrue
        simp [hfalse] at htrue
    | dropStrongMut =>
      obtain ⟨h1, h2, ht⟩ := h
      subst ht
      by_cases hz : s.count - 1 = 0
      · exact hz
      · simp only [if_neg hz] at htrue
        simp [hfalse] at htrue
    | getRef =>
      obtain ⟨h1, b, hok, ht⟩ := h
      subst ht
      simp [hfalse] at htrue
    | getMut =>
      obtain ⟨h1, b, hok, ht⟩ := h
      subst ht
      simp [hfalse] at htrue
    | dropRef =>
      obtain ⟨h1, ht⟩ := h
      subst ht
      simp [hfalse] at htrue
    | dropMut =>
      obtain ⟨h1, ht⟩ := h
      subst ht
      simp [hfalse] at htrue

/-- Witness for C5 at the freed state reached by dropping the only handle
of a fresh cell. -/
theorem C5_free_only_when_unreferenced_witness :
    (CellState.mk 0 0 0 0 0 0 0 true).count = 0 ∧
    (CellState.mk 0 0 0 0 0 0 0 true).a = 0 := by
  have hstep : CellStep CellOp.dropHandle CellInit ⟨0, 0, 0, 0, 0, 0, 0, true⟩ :=
    ⟨by decide, by decide, Or.inr ⟨rfl, rfl⟩, by decide⟩
  have hreach : CellReachable ⟨0, 0, 0, 0, 0, 0, 0, true⟩ :=
    Relation.ReflTransGen.single ⟨CellOp.dropHandle, hstep⟩
  have h := C5_free_only_when_unreferenced.1 _ hreach rfl
  exact ⟨h.1, h.2.1⟩

theorem into_result_spec (v : Value) :
    (∀ c, v.into_result = Except.ok c ↔ v = Value.result c) ∧
    (∀ ti, v.type_info = Except.ok ti → (∀ c, v ≠ Value.result c) →
      v.into_result = Except.error (VmError.expectedResult ti)) ∧
    (∀ e, v.type_info = Except.error e → (∀ c, v ≠ Value.result c) →
      v.into_result = Except.error e) := by
  refine ⟨?_, ?_, ?_⟩
  · intro c
    cases v <;> simp [Value.into_result]
  · intro ti hti hne
    cases v <;>
      first
        | (exact absurd rfl (hne _))
        | simp [Value.into_result, Value.coerceErr, hti]
  · intro e hti hne
    cases v <;>
      first
        | (exact absurd rfl (hne _))
        | simp [Value.into_result, Value.coerceErr, hti]

theorem into_option_spec (v : Value) :
    (∀ c, v.into_option = Except.ok c ↔ v = Value.option c) ∧
    (∀ ti, v.type_info = Except.ok ti → (∀ c, v ≠ Value.option c) →
      v.into_option = Except.error (VmError.expectedOption ti)) ∧
    (∀ e, v.type_info = Except.error e → (∀ c, v ≠ Value.option c) →
      v.into_option = Except.error e) := by
  refine ⟨?_, ?_, ?_⟩
  · intro c
    cases v <;> simp [Value.into_option]
  · intro ti hti hne
    cases v <;>
      first
        | (exact absurd rfl (hne _))
        | simp [Value.into_option, Value.coerceErr, hti]
  · intro e hti hne
    cases v <;>
      first
        | (exact absurd rfl (hne _))
        | simp [Value.into_option, Value.coerceErr, hti]

theorem into_string_spec (v : Value) :
    (∀ c, v.into_string = Except.ok c ↔ v = Value.string c) ∧
    (∀ ti, v.type_info = Except.ok ti → (∀ c, v ≠ Value.string c) →
      v.into_string = Except.error (VmError.expectedString ti)) ∧
    (∀ e, v.type_info = Except.error e → (∀ c, v ≠ Value.string c) →
      v.into_string = Except.error e) := by
  refine ⟨?_, ?_, ?_⟩
  · intro c
    cases v <;> simp [Value.into_string]
  · intro ti hti hne
    cases v <;>
      first
        | (exact absurd rfl (hne _))
        | simp [Value.into_string, Value.coerceErr, hti]
  · intro e hti hne
    cases v <;>
      first
        | (exact absurd rfl (hne _))
        | simp [Value.into_string, Value.coerceErr, hti]

theorem into_bytes_spec (v : Value) :
    (∀ c, v.into_bytes = Except.ok c ↔ v = Value.bytes c) ∧
    (∀ ti, v.type_info = Except.ok ti → (∀ c, v ≠ Value.bytes c) →
      v.into_bytes = Except.error (VmError.expectedBytes ti)) ∧
    (∀ e, v.type_info = Except.error e → (∀ c, v ≠ Value.bytes c) →
      v.into_bytes = Except.error e) := by
  refine ⟨?_, ?_, ?_⟩
  · intro c
    cases v <;> simp [Value.into_bytes]
  · intro ti hti hne
    cases v <;>
      first
        | (exact absurd rfl (hne _))
        | simp [Value.into_bytes, Value.coerceErr, hti]
  · intro e hti hne
    cases v <;>
      first
        | (exact absurd rfl (hne _))
        | simp [Value.into_bytes, Value.coerceErr, hti]

theorem into_vec_spec (v : Value) :
    (∀ c, v.into_vec = Except.ok c ↔ v = Value.vec c) ∧
    (∀ ti, v.type_info = Except.ok ti → (∀ c, v ≠ Value.vec c) →
      v.into_vec = Except.error (VmError.expectedVec ti)) ∧
    (∀ e, v.type_info = Except.error e → (∀ c, v ≠ Value.vec c) →
      v.into_vec = Except.error e) := by
  refine ⟨?_, ?_, ?_⟩
  · intro c
    cases v <;> simp [Value.into_vec]
  · intro ti hti hne
    cases v <;>
      first
        | (exact absurd rfl (hne _))
        | simp [Value.into_vec, Value.coerceErr, hti]
  · intro e hti hne
    cases v <;>
      first
        | (exact absurd rfl (hne _))
        | simp [Value.into_vec, Value.coerceErr, hti]

theorem into_tuple_spec (v : Value) :
    (∀ c, v.into_tuple = Except.ok c ↔ v = Value.tuple c) ∧
    (∀ ti, v.type_info = Except.ok ti → (∀ c, v ≠ Value.tuple c) →
      v.into_tuple = Except.error (VmError.expectedTuple ti)) ∧
    (∀ e, v.type_info = Except.error e → (∀ c, v ≠ Value.tuple c) →
      v.into_tuple = Except.error e) := by
  refine ⟨?_, ?_, ?_⟩
  · intro c
    cases v <;> simp [Value.into_tuple]
  · intro ti hti hne
    cases v <;>
      first
        | (exact absurd rfl (hne _))
        | simp [Value.into_tuple, Value.coerceErr, hti]
  · intro e hti hne
    cases v <;>
      first
        | (exact absurd rfl (hne _))
        | simp [Value.into_tuple, Value.coerceErr, hti]

theorem into_object_spec (v : Value) :
    (∀ c, v.into_object = Except.ok c ↔ v = Value.object c) ∧
    (∀ ti, v.type_info = Except.ok ti → (∀ c, v ≠ Value.object c) →
      v.into_object = Except.error (VmError.expectedObject ti)) ∧
    (∀ e, v.type_info = Except.error e → (∀ c, v ≠ Value.object c) →
      v.into_object = Except.error e) := by
  refine ⟨?_, ?_, ?_⟩
  · intro c
    cases v <;> simp [Value.into_object]
  · intro ti hti hne
    cases v <;>
      first
        | (exact absurd rfl (hne _))
        | simp [Value.into_object, Value.coerceErr, hti]
  · intro e hti hne
    cases v <;>
      first
        | (exact absurd rfl (hne _))
        | simp [Value.into_object, Value.coerceErr, hti]

theorem into_external_spec (v : Value) :
    (∀ c, v.into_external = Except.ok c ↔ v = Value.external c) ∧
    (∀ ti, v.type_info = Except.ok ti → (∀ c, v ≠ Value.external c) →
      v.into_external = Except.error (VmError.expectedExternal ti)) ∧
    (∀ e, v.type_info = Except.error e → (∀ c, v ≠ Value.external c) →
      v.into_external = Except.error e) := by
  refine ⟨?_, ?_, ?_⟩
  · intro c
    cases v <;> simp [Value.into_external]
  · intro ti hti hne
    cases v <;>
      first
        | (exact absurd rfl (hne _))
        | simp [Value.into_external, Value.coerceErr, hti]
  · intro e hti hne
    cases v <;>
      first
        | (exact absurd rfl (hne _))
        | simp [Value.into_external, Value.coerceErr, hti]

/-- Claim C7 (corrected).  Each coercion into_result, into_option,
into_string, into_bytes, into_vec, into_tuple, into_object, into_external
returns Ok with the interior shared cell exactly when the value is the
corresponding variant.  On a mismatch, when the type info of the actual
value is obtainable the coercion returns the matching Expected error
carrying that type info, as the original claim says; but when type_info
itself fails (the actual value is heap-typed and its cell is exclusively
borrowed) the question-mark operator propagates that access error instead
of the Expected one, which the original claim did not allow. -/
theorem C7_value_coercions (v : Value) :
    ((∀ c, v.into_result = Except.ok c ↔ v = Value.result c) ∧
    (∀ ti, v.type_info = Except.ok ti → (∀ c, v ≠ Value.result c) →
      v.into_result = Except.error (VmError.expectedResult ti)) ∧
    (∀ e, v.type_info = Except.error e → (∀ c, v ≠ Value.result c) →
      v.into_result = Except.error e)) ∧
    ((∀ c, v.into_option = Except.ok c ↔ v = Value.option c) ∧
    (∀ ti, v.type_info = Except.ok ti → (∀ c, v ≠ Value.option c) →
      v.into_option = Except.error (VmError.expectedOption ti)) ∧
    (∀ e, v.type_info = Except.error e → (∀ c, v ≠ Value.option c) →
      v.into_option = Except.error e)) ∧
    ((∀ c, v.into_string = Except.ok c ↔ v = Value.string c) ∧
    (∀ ti, v.type_info = Except.ok ti → (∀ c, v ≠ Value.string c) →
      v.into_string = Except.error (VmError.expectedString ti)) ∧
    (∀ e, v.type_info = Except.error e → (∀ c, v ≠ Value.string c) →
      v.into_string = Except.error e)) ∧
    ((∀ c, v.into_bytes = Except.ok c ↔ v = Value.bytes c) ∧
    (∀ ti, v.type_info = Except.ok ti → (∀ c, v ≠ Value.bytes c) →
      v.into_bytes = Except.error (VmError.expectedBytes ti)) ∧
    (∀ e, v.type_info = Except.error e → (∀ c, v ≠ Value.bytes c) →
      v.into_bytes = Except.error e)) ∧
    ((∀ c, v.into_vec = Except.ok c ↔ v = Value.vec c) ∧
    (∀ ti, v.type_info = Except.ok ti → (∀ c, v ≠ Value.vec c) →
      v.into_vec = Except.error (VmError.expectedVec ti)) ∧
    (∀ e, v.type_info = Except.error e → (∀ c, v ≠ Value.vec c) →
      v.into_vec = Except.error e)) ∧
    ((∀ c, v.into_tuple = Except.ok c ↔ v = Value.tuple c) ∧
    (∀ ti, v.type_info = Except.ok ti → (∀ c, v ≠ Value.tuple c) →
      v.into_tuple = Except.error (VmError.expectedTuple ti)) ∧
    (∀ e, v.type_info = Except.error e → (∀ c, v ≠ Value.tuple c) →
      v.into_tuple = Except.error e)) ∧
    ((∀ c, v.into_object = Except.ok c ↔ v = Value.object c) ∧
    (∀ ti, v.type_info = Except.ok ti → (∀ c, v ≠ Value.object c) →
      v.into_object = Except.error (VmError.expectedObject ti)) ∧
    (∀ e, v.type_info = Except.error e → (∀ c, v ≠ Value.object c) →
      v.into_object = Except.error e)) ∧
    ((∀ c, v.into_external = Except.ok c ↔ v = Value.external c) ∧
    (∀ ti, v.type_info = Except.ok ti → (∀ c, v ≠ Value.external c) →
      v.into_external = Except.error (VmError.expectedExternal ti)) ∧
    (∀ e, v.type_info = Except.error e → (∀ c, v ≠ Value.external c) →
      v.into_external = Except.error e)) :=
  ⟨into_result_spec v, into_option_spec v, into_string_spec v, into_bytes_spec v, into_vec_spec v, into_tuple_spec v, into_object_spec v, into_external_spec v⟩

/-- Witness for C7: into_result on Unit reports ExpectedResult with the
type info of Unit. -/
theorem C7_value_coercions_witness :
    Value.into_result Value.unit =
      Except.error (VmError.expectedResult ValueTypeInfo.unit) :=
  (C7_value_coercions Value.unit).1.2.1 ValueTypeInfo.unit rfl
    (by intro c h; cases h)

/-- Counterexample to C7 as stated: into_result applied to an External
value whose cell is exclusively borrowed (access counter 1) returns the
access error, not the ExpectedResult error carrying the type info that the
claim requires. -/
theorem C7_counterexample :
    Value.into_result (Value.external ⟨1, 1, ⟨0, "Foo"⟩⟩) =
      Except.error VmError.accessError ∧
    VmError.accessError ≠
      VmError.expectedResult (ValueTypeInfo.external "Foo") := by
  constructor
  · rfl
  · simp

theorem shared_one_err : Access.shared 1 = .error .mk :=
  Access.shared_err_of_pos (by decide) (by norm_num)

/-- Claim C10 (confirmed).  Value::value_type and Value::type_info return
Ok on every variant except TypedTuple, TypedObject and External; on those
three they acquire a temporary shared borrow of the cell and hence fail
with a VmError while the cell is exclusively borrowed (access counter 1);
and both functions map StaticString and String to the same String type, so
introspection cannot distinguish them. -/
theorem C10_type_introspection :
    (∀ v : Value, v.heapTyped = false →
      (v.value_type).isOk = true ∧ (v.type_info).isOk = true) ∧
    (∀ (n : Nat) (d : Hash × List Value),
      Value.value_type (.typedTuple ⟨1, n, d⟩) = .error .accessError ∧
      Value.type_info (.typedTuple ⟨1, n, d⟩) = .error .accessError) ∧
    (∀ (n : Nat) (d : Hash × List (String × Value)),
      Value.value_type (.typedObject ⟨1, n, d⟩) = .error .accessError ∧
      Value.type_info (.typedObject ⟨1, n, d⟩) = .error .accessError) ∧
    (∀ (n : Nat) (d : AnyData),
      Value.value_type (.external ⟨1, n, d⟩) = .error .accessError ∧
      Value.type_info (.external ⟨1, n, d⟩) = .error .accessError) ∧
    (∀ s, Value.value_type (.staticString s) = .ok .string) ∧
    (∀ cell, Value.value_type (.string cell) = .ok .string) ∧
    (∀ s, Value.type_info (.staticString s) = .ok .string) ∧
    (∀ cell, Value.type_info (.string cell) = .ok .string) := by
  refine ⟨?_, ?_, ?_, ?_, ?_, ?_, ?_, ?_⟩
  · intro v hv
    cases v <;>
      first
        | (exact ⟨rfl, rfl⟩)
        | (exact absurd hv (by simp [Value.heapTyped]))
  · intro n d
    constructor <;>
      simp [Value.value_type, Value.type_info, SharedCell.get_ref,
        shared_one_err]
  · intro n d
    constructor <;>
      simp [Value.value_type, Value.type_info, SharedCell.get_ref,
        shared_one_err]
  · intro n d
    constructor <;>
      simp [Value.value_type, Value.type_info, SharedCell.get_ref,
        shared_one_err]
  · intro s; rfl
  · intro cell; rfl
  · intro s; rfl
  · intro cell; rfl

/-- Witness for C10 on the Integer variant, an exclusively borrowed
External cell, and a static and a heap string. -/
theorem C10_type_introspection_witness :
    (Value.value_type (Value.integer 3)).isOk = true ∧
    Value.type_info (Value.external ⟨1, 1, ⟨9, "Bar"⟩⟩) =
      .error .accessError ∧
    Value.value_type (Value.staticString "k") = .ok .string ∧
    Value.value_type (Value.string ⟨0, 1, "k"⟩) = .ok .string :=
  ⟨(C10_type_introspection.1 (Value.integer 3) rfl).1,
   (C10_type_introspection.2.2.2.1 1 ⟨9, "Bar"⟩).2,
   C10_type_introspection.2.2.2.2.1 "k",
   C10_type_introspection.2.2.2.2.2.1 ⟨0, 1, "k"⟩⟩

/-- Claim C8 (confirmed).  The unary lowering of expr_unary.rs compiles
the operand with Needs::Value (modelled by the operand code argument, whose
net stack effect is one pushed value), emits the operator instruction, and
emits a trailing Pop exactly when the value is not needed, so the net
operand-stack depth change is 0 when the value is discarded and 1 when it
is used. -/
theorem C8_unary_stack_balance (op : UnaryOp) (operand : List Inst)
    (needs : Needs) (code : List Inst)
    (hoperand : stackEffect operand = 1)
    (hok : compileExprUnary op operand needs = .ok code) :
    (needs.value = false →
      code = operand ++ [Inst.Not, Inst.Pop] ∧ stackEffect code = 0) ∧
    (needs.value = true →
      code = operand ++ [Inst.Not] ∧ stackEffect code = 1) := by
  cases op with
  | BorrowRef => cases hok
  | Deref => cases hok
  | Not =>
    cases needs with
    | Value =>
      simp only [compileExprUnary, Needs.value, if_pos] at hok
      constructor
      · intro hx; cases hx
      · intro hx
        have hcode : code = operand ++ [Inst.Not] := by
          simpa using hok.symm
        subst hcode
        refine ⟨rfl, ?_⟩
        simp [stackEffect, instEffect] at hoperand ⊢
        omega
    | None =>
      simp only [compileExprUnary, Needs.value] at hok
      constructor
      · intro hx
        have hcode : code = (operand ++ [Inst.Not]) ++ [Inst.Pop] := by
          simpa using hok.symm
        subst hcode
        refine ⟨by simp, ?_⟩
        simp [stackEffect, instEffect] at hoperand ⊢
        omega
      · intro hx; cases hx

/-- Witness for C8 on the operand code of an integer literal with the
value discarded and with the value needed. -/
theorem C8_unary_stack_balance_witness :
    ([Inst.Integer 7, Inst.Not, Inst.Pop] = [Inst.Integer 7] ++
      [Inst.Not, Inst.Pop] ∧
     stackEffect [Inst.Integer 7, Inst.Not, Inst.Pop] = 0) ∧
    ([Inst.Integer 7, Inst.Not] = [Inst.Integer 7] ++ [Inst.Not] ∧
     stackEffect [Inst.Integer 7, Inst.Not] = 1) :=
  ⟨(C8_unary_stack_balance UnaryOp.Not [Inst.Integer 7] Needs.None
      [Inst.Integer 7, Inst.Not, Inst.Pop] (by simp [stackEffect, instEffect])
      (by rfl)).1 rfl,
   (C8_unary_stack_balance UnaryOp.Not [Inst.Integer 7] Needs.Value
      [Inst.Integer 7, Inst.Not] (by simp [stackEffect, instEffect])
      (by rfl)).2 rfl⟩

end Rune
